import Mathlib

/-!
Verification development for the fused matmul + epilogue engine in
`transformer_engine/common/gemm/cublaslt_gemm.cu`.

The file shallowly embeds the three backend variants of `cublas_gemm`
(the hipblaslt native-fusion variant, the rocblas emulated-epilogue
variant and the cublasLt native-fusion variant) together with the
`detail` elementwise kernel library and the `nvte_cublas_gemm` wrapper.

Modelling conventions:
* Device buffers are total functions `Nat → R` over a commutative ring
  `R`; floating-point arithmetic is modelled exactly (rounding and value
  narrowing casts are abstracted to the identity), which is the standard
  idealisation for the structural properties checked here.
* Null pointers are `Option.none`; an optional tensor payload is
  `Option (Nat → R)`.
* Every device-side interaction (resource creation/destruction, kernel
  or library enqueue with its stream argument, blocking host readback)
  is recorded in an explicit trace, so ordering, stream and lifetime
  claims become statements about that trace.
* The GELU scalar function is kept as an explicit parameter of the
  emulated pipeline (the pipeline never inspects it); its real-number
  definition from the source is given separately for the analytic
  claims.
-/

namespace TEGemm

/-- Element formats handled by `get_cuda_dtype` in the source file. -/
inductive DType
  | kFloat32
  | kFloat16
  | kBFloat16
  | kFloat8E4M3
  | kFloat8E5M2
deriving DecidableEq, Fintype

/-- Source `is_fp8_dtype`: the two narrow (8-bit floating) formats. -/
def is_fp8_dtype : DType → Bool
  | .kFloat8E4M3 => true
  | .kFloat8E5M2 => true
  | _ => false

/-- The rocblas library type tags used by the emulated backend
(`rocblas_datatype_f32_r` etc.). -/
inductive rocblas_datatype
  | f32_r
  | f16_r
  | bf16_r
  | f8_r
  | bf8_r
deriving DecidableEq, Fintype

/-- Source `get_cuda_dtype` (rocblas variant, lines 52-68): maps an
element format to the library's native type tag. All five formats of
`DType` are mapped; the source's default branch is unreachable for
them. -/
def get_cuda_dtype : DType → rocblas_datatype
  | .kFloat16 => .f16_r
  | .kFloat32 => .f32_r
  | .kBFloat16 => .bf16_r
  | .kFloat8E4M3 => .f8_r
  | .kFloat8E5M2 => .bf8_r

/-- A rocblas type tag denoting a narrow 8-bit floating format. -/
def is_narrow_roc (t : rocblas_datatype) : Bool :=
  t == .f8_r || t == .bf8_r

/-- The NVTE_CHECK disjunction at lines 590-605 of the rocblas backend:
the (A, B, D) type triples the emulated path accepts. -/
def rocblas_triple_ok (a b d : rocblas_datatype) : Bool :=
  (a == .f16_r && b == .f16_r && d == .f16_r) ||
  (a == .f32_r && b == .f32_r && d == .f32_r) ||
  (a == .f8_r && b == .f8_r && d == .f32_r) ||
  (a == .f8_r && b == .f8_r && d == .f16_r) ||
  (a == .f8_r && b == .bf8_r && d == .f32_r) ||
  (a == .f8_r && b == .bf8_r && d == .f16_r) ||
  (a == .bf8_r && b == .f8_r && d == .f32_r) ||
  (a == .bf8_r && b == .f8_r && d == .f16_r)

/-- Modelled from the claim's wording (for comparison with
`rocblas_triple_ok`): (fp16,fp16,fp16); (fp32,fp32,fp32); and
(e4m3 or e5m2, e4m3 or e5m2, fp32 or fp16) except both inputs e5m2. -/
def spec_triple_ok (a b d : rocblas_datatype) : Bool :=
  (a == .f16_r && b == .f16_r && d == .f16_r) ||
  (a == .f32_r && b == .f32_r && d == .f32_r) ||
  (is_narrow_roc a && is_narrow_roc b && !(a == .bf8_r && b == .bf8_r) &&
    (d == .f32_r || d == .f16_r))

/-- The scratch-buffer condition at line 610 of the rocblas backend:
a distinct `D_temp` is hipMalloc'd iff an epilogue is requested and the
output tag is one of f16/f8/bf8. -/
def rocblas_need_scratch (bias gelu : Bool) (d : rocblas_datatype) : Bool :=
  (bias || gelu) && (d == .f16_r || d == .f8_r || d == .bf8_r)

section Kernels

variable {R : Type} [CommRing R]

/-- Source `detail::gelu_forward_kernel` (lines 153-163): grid-stride
loop covering exactly the ids below `m * n`; each covered id receives
the activation of the input element, other positions keep the previous
contents of `out`. The scalar activation is a parameter of the model. -/
def gelu_forward_kernel (act : R → R) (inb out : Nat → R) (m n : Nat) : Nat → R :=
  fun id => if id < m * n then act (inb id) else out id

/-- Source `detail::gelu_backward_kernel` (lines 196-205): for every id
below `m * n`, reads the stored pre-activation value and the upstream
gradient and writes the activation-gradient combination. -/
def gelu_backward_kernel (actGrad : R → R → R) (dy out pre : Nat → R) (m n : Nat) :
    Nat → R :=
  fun id => if id < m * n then actGrad (pre id) (dy id) else out id

/-- Source `detail::add_bias_kernel` (lines 215-225):
`out[id] = in[id] + bias[id % n]` for id below `m * n`. -/
def add_bias_kernel (inb out biasv : Nat → R) (m n : Nat) : Nat → R :=
  fun id => if id < m * n then inb id + biasv (id % n) else out id

/-- Source `detail::add_bias_gelu_kernel` (lines 237-248): writes the
biased value into the pre-activation output and its activation into the
main output. Returns (out, pre_gelu_out). -/
def add_bias_gelu_kernel (act : R → R) (inb out pre biasv : Nat → R) (m n : Nat) :
    (Nat → R) × (Nat → R) :=
  (fun id => if id < m * n then act (inb id + biasv (id % n)) else out id,
   fun id => if id < m * n then inb id + biasv (id % n) else pre id)

/-- Source `detail::identity_kernel` (lines 259-267): value copy of the
first `n` elements. -/
def identity_kernel (inb out : Nat → R) (n : Nat) : Nat → R :=
  fun id => if id < n then inb id else out id

/-- Row index of a thread of `detail::bias_gradient_kernel`
(lines 286-288): `idx % (BLOCKS_PER_COL * THREADS_PER_BLOCK)` with
`idx = blockIdx.x * blockDim.x + threadIdx.x`. -/
def bg_row_idx (BPC TPB bid t : Nat) : Nat :=
  (bid * TPB + t) % (BPC * TPB)

/-- Column index of a thread of `detail::bias_gradient_kernel`
(line 287): `idx / (BLOCKS_PER_COL * THREADS_PER_BLOCK)`. -/
def bg_col_idx (BPC TPB bid t : Nat) : Nat :=
  (bid * TPB + t) / (BPC * TPB)

/-- Per-thread datum of `detail::bias_gradient_kernel` (lines 289-291):
`in[row_idx * n + col_idx]` when `row_idx < m`. Threads with
`row_idx >= m` leave the register uninitialised; such threads are never
included in either reduction branch, so the default value 0 used here
is never read by `bg_block_sum`. -/
def bg_thread_data (inb : Nat → R) (m n BPC TPB bid t : Nat) : R :=
  if bg_row_idx BPC TPB bid t < m then
    inb (bg_row_idx BPC TPB bid t * n + bg_col_idx BPC TPB bid t)
  else 0

/-- Block-level reduction of `detail::bias_gradient_kernel`
(lines 292-298): blocks whose rows lie below
`(BLOCKS_PER_COL - 1) * THREADS_PER_BLOCK` sum all `THREADS_PER_BLOCK`
thread data; the last block of a column sums only the first
`m - (BLOCKS_PER_COL - 1) * THREADS_PER_BLOCK` thread data (the
`num_valid` variant of the cub block reduction). The branch condition
is that of thread 0, which holds for every thread of the block alike. -/
def bg_block_sum (inb : Nat → R) (m n BPC TPB bid : Nat) : R :=
  if bg_row_idx BPC TPB bid 0 < (BPC - 1) * TPB then
    ∑ t ∈ Finset.range TPB, bg_thread_data inb m n BPC TPB bid t
  else
    ∑ t ∈ Finset.range (m - (BPC - 1) * TPB), bg_thread_data inb m n BPC TPB bid t

/-- Source `detail::bias_gradient_kernelLauncher` (lines 303-312)
followed by the kernel (lines 278-301): `out[0..n)` is first zeroed by
`hipMemset`; then grid `BLOCKS_PER_COL * n` blocks each atomically add
their block sum to `out[col_idx]` (`col_idx` of thread 0 of the block).
Atomic accumulation is order-independent in the exact model, so the
result is the plain sum over the blocks targeting a column. The block
size is kept as the parameter `TPB` (the source instantiates 1024). -/
def bias_gradient_launcher (inb out : Nat → R) (m n TPB : Nat) : Nat → R :=
  fun c =>
    (if c < n then 0 else out c) +
      ∑ bid ∈ (Finset.range ((m + TPB - 1) / TPB * n)).filter
          (fun bid => bg_col_idx ((m + TPB - 1) / TPB) TPB bid 0 = c),
        bg_block_sum inb m n ((m + TPB - 1) / TPB) TPB bid

end Kernels

/-- Descriptor/handle/buffer objects whose lifetime the backends manage. -/
inductive Res
  | handle
  | adesc
  | bdesc
  | cdesc
  | ddesc
  | opdesc
  | matmulPref
  | scratch
  | biasScratch
deriving DecidableEq, Fintype

/-- Device operations a call can enqueue. -/
inductive DevOp
  | gemmEx
  | memsetZero
  | kGeluForward
  | kGeluBackward
  | kAddBias
  | kAddBiasGelu
  | kIdentity
  | kBiasGrad
  | matmulFused
deriving DecidableEq, Fintype

/-- One host-visible interaction with the device or the math library:
resource creation/destruction, an asynchronous enqueue on a given
stream, a blocking device-to-host scalar read, or a blocking
device-wide synchronisation. -/
inductive Action
  | create (r : Res)
  | destroy (r : Res)
  | enqueue (op : DevOp) (streamId : Nat)
  | hostRead
  | deviceSync
deriving DecidableEq

/-- The borrowed tensor view the call receives: device data pointer
(none models a null pointer), element format, inverse-scale scalar
pointer, and the stored shape (used by the wrapper). -/
structure SimTensor (R : Type) where
  dptr : Option (Nat → R)
  dtype : DType
  scale_inv : Option R
  shape0 : Nat
  shape1 : Nat

/-- The scalar configuration of one `cublas_gemm` call. -/
structure GemmCfg where
  m : Nat
  n : Nat
  k : Nat
  lda : Nat
  ldb : Nat
  ldd : Nat
  transa : Bool
  transb : Bool
  grad : Bool
  accumulate : Bool
  streamId : Nat

/-- Data pointer of a tensor; reading through a null pointer is modelled
as the all-zero buffer (the code paths proved about never do so except
where explicitly discussed). -/
def bufOf {R : Type} [CommRing R] (t : SimTensor R) : Nat → R :=
  t.dptr.getD (fun _ => 0)

section RocBlas

variable {R : Type} [CommRing R]

/-- Element (i, l) of op(A) for a column-major matrix with leading
dimension `lda`, as consumed by `rocblas_gemm_ex`. -/
def op_a (Abuf : Nat → R) (lda : Nat) (ta : Bool) (i l : Nat) : R :=
  if ta then Abuf (l + i * lda) else Abuf (i + l * lda)

/-- Element (l, j) of op(B) for a column-major matrix with leading
dimension `ldb`. -/
def op_b (Bbuf : Nat → R) (ldb : Nat) (tb : Bool) (l j : Nat) : R :=
  if tb then Bbuf (j + l * ldb) else Bbuf (l + j * ldb)

/-- The bare multiply `D = alpha * op(A) * op(B) + beta * C` performed by
`rocblas_gemm_ex` / `rocblas_gemm_ex3` (lines 626-642), writing the
m-by-n result column-major with leading dimension `ldd` (C and D alias
the same buffer in the source call). -/
def rocblas_gemm_ex (Abuf Bbuf Cbuf : Nat → R) (cfg : GemmCfg) (alpha beta : R) :
    Nat → R :=
  fun id =>
    if id % cfg.ldd < cfg.m ∧ id / cfg.ldd < cfg.n then
      alpha * (∑ l ∈ Finset.range cfg.k,
          op_a Abuf cfg.lda cfg.transa (id % cfg.ldd) l *
            op_b Bbuf cfg.ldb cfg.transb l (id / cfg.ldd)) +
        beta * Cbuf id
    else Cbuf id

/-- The full argument record of one emulated-backend call. Besides the
call arguments it carries the unspecified initial contents of freshly
hipMalloc'd buffers (`scratchInit`, `biasScratchInit`), the unspecified
host values obtained if an inverse-scale readback copies from a null
pointer (`uninitA`, `uninitB` - the source does not check that hipMemcpy
succeeds), and the scalar activation and its gradient as parameters. -/
structure RocArgs (R : Type) where
  inputA : SimTensor R
  inputB : SimTensor R
  outputD : SimTensor R
  inputBias : SimTensor R
  outputPreGelu : SimTensor R
  cfg : GemmCfg
  scratchInit : Nat → R
  biasScratchInit : Nat → R
  uninitA : R
  uninitB : R
  act : R → R
  actGrad : R → R → R

/-- Result of one emulated-backend call: error (if any), the action
trace, the final contents of the D, bias and pre-gelu buffers, the
multiply result buffer `D_temp`, and whether a distinct scratch buffer
was allocated for it. -/
structure RocOut (R : Type) where
  err : Option String
  trace : List Action
  outD : Nat → R
  outBias : Nat → R
  outPreGelu : Nat → R
  dTemp : Nat → R
  usedScratch : Bool

/-- Early-failure result: error raised, nothing written. -/
def rocFail (a : RocArgs R) (msg : String) (tr : List Action) : RocOut R :=
  { err := some msg, trace := tr, outD := bufOf a.outputD,
    outBias := bufOf a.inputBias, outPreGelu := bufOf a.outputPreGelu,
    dTemp := bufOf a.outputD, usedScratch := false }

/-- Source lines 572-574: `beta = accumulate ? 1 : 0`. -/
def rocblas_beta (a : RocArgs R) : R :=
  if a.cfg.accumulate then 1 else 0

/-- Source lines 576-582: `alpha` is 1, except for narrow inputs where
both inverse scales are copied device-to-host (without a null check)
and multiplied on the host. -/
def rocblas_alpha (a : RocArgs R) : R :=
  if is_fp8_dtype a.inputA.dtype || is_fp8_dtype a.inputB.dtype then
    a.inputA.scale_inv.getD a.uninitA * a.inputB.scale_inv.getD a.uninitB
  else 1

/-- Outputs and trace of the epilogue phase of the emulated backend. -/
structure EpOut (R : Type) where
  outD : Nat → R
  outBias : Nat → R
  outPreGelu : Nat → R
  tr : List Action

/-- The epilogue dispatch of the rocblas backend (lines 646-852),
applied to the multiply result `dTemp`. All kernel launchers are passed
stream 0, exactly as in the source. `dAfter` is the initial content of
the D buffer at epilogue time: when no scratch was allocated, `D_temp`
aliases D, so D already holds the multiply result. -/
def rocblas_epilogue (a : RocArgs R) (dTemp : Nat → R) (needScratch : Bool) : EpOut R :=
  let bias := a.inputBias.dptr.isSome
  let gelu := a.outputPreGelu.dptr.isSome
  let dAfter := if needScratch then bufOf a.outputD else dTemp
  let bias0 := bufOf a.inputBias
  let pre0 := bufOf a.outputPreGelu
  let biasNotF32 := !(get_cuda_dtype a.inputBias.dtype == .f32_r)
  if bias && gelu then
    if a.cfg.grad then
      -- lines 648-705: GELU gradient into D, then bias gradient of D
      let D1 := gelu_backward_kernel a.actGrad dTemp dAfter pre0 a.cfg.n a.cfg.m
      let bt0 := if biasNotF32 then a.biasScratchInit else bias0
      let bt1 := bias_gradient_launcher D1 bt0 a.cfg.n a.cfg.m 1024
      let biasFinal := if biasNotF32 then identity_kernel bt1 bias0 a.cfg.m else bt1
      { outD := D1, outBias := biasFinal, outPreGelu := pre0,
        tr := [Action.enqueue .kGeluBackward 0] ++
          (if biasNotF32 then [Action.create .biasScratch] else []) ++
          [Action.enqueue .memsetZero 0, Action.enqueue .kBiasGrad 0] ++
          (if biasNotF32 then
            [Action.enqueue .kIdentity 0, Action.deviceSync, Action.destroy .biasScratch]
          else []) }
    else
      -- lines 707-731: fused bias add + GELU with pre-activation output
      let pr := add_bias_gelu_kernel a.act dTemp dAfter pre0 bias0 a.cfg.n a.cfg.m
      { outD := pr.1, outBias := bias0, outPreGelu := pr.2,
        tr := [Action.enqueue .kAddBiasGelu 0] }
  else if bias then
    if a.cfg.grad then
      -- lines 733-778: bias gradient reduces operand B; D gets a value
      -- copy of D_temp only when its type tag is f16
      let bt0 := if biasNotF32 then a.biasScratchInit else bias0
      let bt1 := bias_gradient_launcher (bufOf a.inputB) bt0 a.cfg.k a.cfg.n 1024
      let biasFinal := if biasNotF32 then identity_kernel bt1 bias0 a.cfg.n else bt1
      let D1 := if get_cuda_dtype a.outputD.dtype == .f16_r then
          identity_kernel dTemp dAfter (a.cfg.m * a.cfg.n)
        else dAfter
      { outD := D1, outBias := biasFinal, outPreGelu := pre0,
        tr := (if biasNotF32 then [Action.create .biasScratch] else []) ++
          [Action.enqueue .memsetZero 0, Action.enqueue .kBiasGrad 0] ++
          (if biasNotF32 then
            [Action.enqueue .kIdentity 0, Action.deviceSync, Action.destroy .biasScratch]
          else []) ++
          (if get_cuda_dtype a.outputD.dtype == .f16_r then
            [Action.enqueue .kIdentity 0]
          else []) }
    else
      -- lines 780-802: broadcast bias add
      { outD := add_bias_kernel dTemp dAfter bias0 a.cfg.n a.cfg.m, outBias := bias0,
        outPreGelu := pre0, tr := [Action.enqueue .kAddBias 0] }
  else if gelu then
    if a.cfg.grad then
      -- lines 804-823: GELU gradient
      { outD := gelu_backward_kernel a.actGrad dTemp dAfter pre0 a.cfg.n a.cfg.m,
        outBias := bias0, outPreGelu := pre0,
        tr := [Action.enqueue .kGeluBackward 0] }
    else
      -- lines 825-851: GELU forward plus pre-activation copy
      { outD := gelu_forward_kernel a.act dTemp dAfter a.cfg.n a.cfg.m,
        outBias := bias0,
        outPreGelu := identity_kernel dTemp pre0 (a.cfg.n * a.cfg.m),
        tr := [Action.enqueue .kGeluForward 0, Action.enqueue .kIdentity 0] }
  else
    -- no epilogue: the multiply already wrote into D (D_temp aliases D)
    { outD := dTemp, outBias := bias0, outPreGelu := pre0, tr := [] }

/-- The rocblas (emulated) variant of `cublas_gemm` (lines 524-856):
precondition checks in source order, host readback of the inverse
scales for narrow inputs, the type-triple check, the scratch decision,
the bare multiply, the epilogue dispatch and the scratch release. The
rocblas handle is created before the type-triple check and its stream
is never set, so the multiply runs on the default stream 0; every
epilogue kernel is likewise launched with stream argument 0. -/
def cublas_gemm_rocblas (a : RocArgs R) : RocOut R :=
  let bias := a.inputBias.dptr.isSome
  let gelu := a.outputPreGelu.dptr.isSome
  let use_fp8 := is_fp8_dtype a.inputA.dtype || is_fp8_dtype a.inputB.dtype
  if use_fp8 && gelu && is_fp8_dtype a.outputPreGelu.dtype then
    rocFail a "fp8 Aux output for gemm + gelu fusion not supported!" []
  else if is_fp8_dtype a.outputD.dtype && a.cfg.accumulate then
    rocFail a "Accumulation mode not supported with FP8 GEMM output!" []
  else
    let tr1 := (if use_fp8 then [Action.hostRead, Action.hostRead] else []) ++
      [Action.create .handle]
    if !rocblas_triple_ok (get_cuda_dtype a.inputA.dtype) (get_cuda_dtype a.inputB.dtype)
        (get_cuda_dtype a.outputD.dtype) then
      rocFail a "Only the following combinations of data types are enabled now!" tr1
    else
      let needScratch := rocblas_need_scratch bias gelu (get_cuda_dtype a.outputD.dtype)
      let dTempInit := if needScratch then a.scratchInit else bufOf a.outputD
      let dTemp := rocblas_gemm_ex (bufOf a.inputA) (bufOf a.inputB) dTempInit a.cfg
        (rocblas_alpha a) (rocblas_beta a)
      let ep := rocblas_epilogue a dTemp needScratch
      { err := none,
        trace := tr1 ++ (if needScratch then [Action.create .scratch] else []) ++
          [Action.enqueue .gemmEx 0, Action.destroy .handle] ++ ep.tr ++
          (if needScratch then [Action.destroy .scratch] else []),
        outD := ep.outD, outBias := ep.outBias, outPreGelu := ep.outPreGelu,
        dTemp := dTemp, usedScratch := needScratch }

end RocBlas

section Native

variable {R : Type} [CommRing R]

/-- Arguments of a native-fusion call. `returnedResults` is the number
of algorithms the library heuristic reports (an environment-dependent
input of the call). -/
structure NativeArgs (R : Type) where
  inputA : SimTensor R
  inputB : SimTensor R
  outputD : SimTensor R
  inputBias : SimTensor R
  outputPreGelu : SimTensor R
  cfg : GemmCfg
  returnedResults : Nat

/-- The hipblaslt variant of `cublas_gemm` (lines 336-522): precondition
checks in source order, then handle/layout/descriptor/preference
creation, the heuristic search (fails when it returns zero algorithms,
with nothing destroyed), one fused matmul enqueued on the caller's
stream, and destruction of every created object. Returns the error (if
any) and the action trace up to the failure or return. -/
def cublas_gemm_hipblaslt (a : NativeArgs R) : Option String × List Action :=
  if is_fp8_dtype a.inputA.dtype && a.inputA.scale_inv.isNone then
    (some "FP8 input to GEMM requires inverse of scale!", [])
  else if is_fp8_dtype a.inputB.dtype && a.inputB.scale_inv.isNone then
    (some "FP8 input to GEMM requires inverse of scale!", [])
  else if (is_fp8_dtype a.inputA.dtype || is_fp8_dtype a.inputB.dtype) &&
      a.outputPreGelu.dptr.isSome then
    (some "fp8 gemm + gelu fusion is unavailable right now!", [])
  else
    let tr := [Action.create .handle, Action.create .adesc, Action.create .bdesc,
      Action.create .ddesc, Action.create .opdesc, Action.create .matmulPref]
    if a.returnedResults == 0 then
      (some "Unable to find any suitable algorithms", tr)
    else
      (none, tr ++ [Action.enqueue .matmulFused a.cfg.streamId,
        Action.destroy .matmulPref, Action.destroy .ddesc, Action.destroy .bdesc,
        Action.destroy .adesc, Action.destroy .opdesc, Action.destroy .handle])

/-- The cublasLt variant of `cublas_gemm` (lines 860-1086): precondition
checks in source order, creation of the handle, the A/B/D layouts, the
operation descriptor, the C layout and the preference, the heuristic
search (fails when it returns zero algorithms, with nothing destroyed),
one fused matmul enqueued on the caller's stream, and destruction of
the preference and the layouts/descriptor - the handle itself is never
destroyed in this variant. -/
def cublas_gemm_cublaslt (a : NativeArgs R) : Option String × List Action :=
  if is_fp8_dtype a.inputA.dtype && a.inputA.scale_inv.isNone then
    (some "FP8 input to GEMM requires inverse of scale!", [])
  else if is_fp8_dtype a.inputB.dtype && a.inputB.scale_inv.isNone then
    (some "FP8 input to GEMM requires inverse of scale!", [])
  else if (is_fp8_dtype a.inputA.dtype || is_fp8_dtype a.inputB.dtype) &&
      a.outputPreGelu.dptr.isSome && is_fp8_dtype a.outputPreGelu.dtype then
    (some "fp8 Aux output for gemm + gelu fusion not supported!", [])
  else if is_fp8_dtype a.outputD.dtype && a.cfg.accumulate then
    (some "Accumulation mode not supported with FP8 GEMM output!", [])
  else
    let tr := [Action.create .handle, Action.create .adesc, Action.create .bdesc,
      Action.create .ddesc, Action.create .opdesc, Action.create .cdesc,
      Action.create .matmulPref]
    if a.returnedResults == 0 then
      (some "Unable to find any suitable algorithms", tr)
    else
      (none, tr ++ [Action.enqueue .matmulFused a.cfg.streamId,
        Action.destroy .matmulPref, Action.destroy .ddesc, Action.destroy .cdesc,
        Action.destroy .bdesc, Action.destroy .adesc, Action.destroy .opdesc])

end Native

section Wrapper

variable {R : Type} [CommRing R]

/-- Arguments of the `nvte_cublas_gemm` wrapper (lines 1091-1192). -/
structure NvteArgs (R : Type) where
  tA : SimTensor R
  tB : SimTensor R
  tD : SimTensor R
  tBias : SimTensor R
  tPre : SimTensor R
  transa : Bool
  transb : Bool
  grad : Bool
  accumulate : Bool
  streamId : Nat
  scratchInit : Nat → R
  biasScratchInit : Nat → R
  uninitA : R
  uninitB : R
  act : R → R
  actGrad : R → R → R

/-- The `nvte_cublas_gemm` wrapper over the rocblas backend under the
ROCm build without hipblaslt: computes m/k/n from the stored shapes and
the leading dimensions from the transpose pair (rejecting TT before
anything else), reads the `NVTE_LOG_GEMM_CONFIG` switch, and - only
when logging is on - copies both inverse scales to the host and prints
the resolved configuration, then invokes the backend unchanged. The
first component is the call result (none when the TT layout error
aborts the call); the second is the pair of host values read by the
logging branch (none when logging is off or the call aborted first). -/
def nvte_cublas_gemm (logFlag : Bool) (a : NvteArgs R) :
    Option (RocOut R) × Option (R × R) :=
  if a.transa && a.transb then (none, none)
  else
    let mm := if a.transa then a.tA.shape0 else a.tA.shape1
    let kk := if a.transa then a.tA.shape1 else a.tA.shape0
    let nn := if a.transb then a.tB.shape1 else a.tB.shape0
    let cfg : GemmCfg :=
      { m := mm, n := nn, k := kk,
        lda := if a.transa then kk else mm,
        ldb := if a.transb then nn else kk,
        ldd := mm,
        transa := a.transa, transb := a.transb, grad := a.grad,
        accumulate := a.accumulate, streamId := a.streamId }
    (some (cublas_gemm_rocblas
      { inputA := a.tA, inputB := a.tB, outputD := a.tD, inputBias := a.tBias,
        outputPreGelu := a.tPre, cfg := cfg,
        scratchInit := a.scratchInit, biasScratchInit := a.biasScratchInit,
        uninitA := a.uninitA, uninitB := a.uninitB,
        act := a.act, actGrad := a.actGrad }),
     if logFlag then
       some (a.tA.scale_inv.getD a.uninitA, a.tB.scale_inv.getD a.uninitB)
     else none)

end Wrapper

section Gelu

/-- The constant `kBeta = 0.7978845608028654` of `detail::gelu_forward`
and `detail::gelu_backward` (lines 140, 148, 178). In single precision
it is the same binary32 value as the spec's `0.7978845608` (see the
last two conjuncts of the C6 theorem). -/
noncomputable def kBeta : ℝ := 0.7978845608028654

/-- The constant `kKappa = 0.044715` (lines 140, 148, 179). -/
noncomputable def kKappa : ℝ := 0.044715

/-- Source `detail::gelu_forward` (lines 145-150):
`cdf = 0.5 * (1 + tanh(kBeta * (x + kKappa x^3)))`, result `x * cdf`,
modelled over the reals. -/
noncomputable def gelu_forward (x : ℝ) : ℝ :=
  x * (0.5 * (1 + Real.tanh (kBeta * (x + kKappa * x * x * x))))

/-- Source `detail::gelu_backward` (lines 175-194), transcribed
statement by statement: the closed-form derivative of the tanh-based
GELU at the stored pre-activation value `x`, multiplied by the upstream
gradient `dy`. -/
noncomputable def gelu_backward (x dy : ℝ) : ℝ :=
  let x_sq := x * x
  let x_cube := x_sq * x
  let tanh_inner := Real.tanh (kBeta * (x + kKappa * x_cube))
  let left := 0.5 * x
  let right := 1 + tanh_inner
  let left_derivative := 0.5 * right
  let tanh_derivative := 1 - tanh_inner * tanh_inner
  let inner_derivative := kBeta * (1 + 3 * kKappa * x_sq)
  let right_derivative := left * tanh_derivative * inner_derivative
  dy * (left_derivative + right_derivative)

end Gelu

section Instances

/-- A 1-by-1 integer tensor with constant payload `v`, format `dt` and
no inverse scale. -/
def intTensor (v : Int) (dt : DType) : SimTensor Int :=
  { dptr := some (fun _ => v), dtype := dt, scale_inv := none,
    shape0 := 1, shape1 := 1 }

/-- A 1-by-1 integer tensor with constant payload `v`, format `dt` and
inverse scale `sc`. -/
def intTensorScaled (v sc : Int) (dt : DType) : SimTensor Int :=
  { dptr := some (fun _ => v), dtype := dt, scale_inv := some sc,
    shape0 := 1, shape1 := 1 }

/-- A tensor with a null data pointer. -/
def noTensor : SimTensor Int :=
  { dptr := none, dtype := DType.kFloat32, scale_inv := none,
    shape0 := 0, shape1 := 0 }

/-- A 1x1x1 call configuration. -/
def cfg1 (ta tb grad acc : Bool) (sid : Nat) : GemmCfg :=
  { m := 1, n := 1, k := 1, lda := 1, ldb := 1, ldd := 1,
    transa := ta, transb := tb, grad := grad, accumulate := acc,
    streamId := sid }

def c10args : RocArgs Int :=
  { inputA := intTensor 1 DType.kFloat32
    inputB := intTensor 1 DType.kFloat32
    outputD := intTensor 0 DType.kBFloat16
    inputBias := noTensor
    outputPreGelu := noTensor
    cfg := cfg1 false false false false 0
    scratchInit := fun _ => 0
    biasScratchInit := fun _ => 0
    uninitA := 0
    uninitB := 0
    act := fun q => q
    actGrad := fun _ dy => dy }

def c2args : RocArgs Int :=
  { inputA := intTensor 2 DType.kFloat16
    inputB := intTensor 3 DType.kFloat16
    outputD := intTensor 0 DType.kFloat16
    inputBias := intTensor 0 DType.kFloat16
    outputPreGelu := noTensor
    cfg := cfg1 false false false false 0
    scratchInit := fun _ => 0
    biasScratchInit := fun _ => 0
    uninitA := 0
    uninitB := 0
    act := fun q => q
    actGrad := fun _ dy => dy }

def c1args : RocArgs Int :=
  { inputA := intTensor 2 DType.kFloat32
    inputB := intTensor 3 DType.kFloat32
    outputD := intTensor 0 DType.kFloat32
    inputBias := intTensor 0 DType.kFloat32
    outputPreGelu := noTensor
    cfg := cfg1 false true true false 0
    scratchInit := fun _ => 0
    biasScratchInit := fun _ => 0
    uninitA := 0
    uninitB := 0
    act := fun q => q
    actGrad := fun _ dy => dy }

def c3args : RocArgs Int :=
  { inputA := intTensor 2 DType.kFloat8E4M3
    inputB := intTensorScaled 3 1 DType.kFloat8E4M3
    outputD := intTensor 0 DType.kFloat32
    inputBias := noTensor
    outputPreGelu := noTensor
    cfg := cfg1 false false false false 0
    scratchInit := fun _ => 0
    biasScratchInit := fun _ => 0
    uninitA := 5
    uninitB := 0
    act := fun q => q
    actGrad := fun _ dy => dy }

def c3na : NativeArgs Int :=
  { inputA := intTensor 2 DType.kFloat8E4M3
    inputB := intTensorScaled 3 1 DType.kFloat8E4M3
    outputD := intTensor 0 DType.kFloat16
    inputBias := noTensor
    outputPreGelu := noTensor
    cfg := cfg1 false false false false 0
    returnedResults := 1 }

def c4na : NativeArgs Int :=
  { inputA := intTensorScaled 2 1 DType.kFloat8E4M3
    inputB := intTensorScaled 3 1 DType.kFloat8E4M3
    outputD := intTensor 0 DType.kFloat8E4M3
    inputBias := noTensor
    outputPreGelu := noTensor
    cfg := cfg1 false false false true 5
    returnedResults := 1 }

def c4roc : RocArgs Int :=
  { inputA := intTensorScaled 2 1 DType.kFloat8E4M3
    inputB := intTensorScaled 3 1 DType.kFloat8E4M3
    outputD := intTensor 0 DType.kFloat8E4M3
    inputBias := noTensor
    outputPreGelu := noTensor
    cfg := cfg1 false false false true 0
    scratchInit := fun _ => 0
    biasScratchInit := fun _ => 0
    uninitA := 0
    uninitB := 0
    act := fun q => q
    actGrad := fun _ dy => dy }

def c4cb : NativeArgs Int :=
  { inputA := intTensorScaled 2 1 DType.kFloat8E4M3
    inputB := intTensorScaled 3 1 DType.kFloat8E4M3
    outputD := intTensor 0 DType.kFloat8E4M3
    inputBias := noTensor
    outputPreGelu := noTensor
    cfg := cfg1 false false false true 0
    returnedResults := 1 }

def c7args : RocArgs Int :=
  { inputA := intTensor 2 DType.kFloat32
    inputB := intTensor 3 DType.kFloat32
    outputD := intTensor 0 DType.kFloat32
    inputBias := noTensor
    outputPreGelu := intTensor 0 DType.kFloat32
    cfg := cfg1 false false false false 1
    scratchInit := fun _ => 0
    biasScratchInit := fun _ => 0
    uninitA := 0
    uninitB := 0
    act := fun q => q
    actGrad := fun _ dy => dy }

def c8na : NativeArgs Int :=
  { inputA := intTensor 2 DType.kFloat32
    inputB := intTensor 3 DType.kFloat32
    outputD := intTensor 0 DType.kFloat32
    inputBias := noTensor
    outputPreGelu := noTensor
    cfg := cfg1 false false false false 0
    returnedResults := 0 }

def c8hip : NativeArgs Int :=
  { inputA := intTensor 2 DType.kFloat32
    inputB := intTensor 3 DType.kFloat32
    outputD := intTensor 0 DType.kFloat32
    inputBias := noTensor
    outputPreGelu := noTensor
    cfg := cfg1 false false false false 0
    returnedResults := 2 }

def c7na : NativeArgs Int :=
  { inputA := intTensor 2 DType.kFloat32
    inputB := intTensor 3 DType.kFloat32
    outputD := intTensor 0 DType.kFloat32
    inputBias := noTensor
    outputPreGelu := noTensor
    cfg := cfg1 false false false false 3
    returnedResults := 1 }

end Instances

section ReductionLemmas

lemma bpc_bounds (m TPB : Nat) (hT : 0 < TPB) (hm : 0 < m) :
    ((m + TPB - 1) / TPB - 1) * TPB < m ∧ m ≤ (m + TPB - 1) / TPB * TPB ∧
      0 < (m + TPB - 1) / TPB := by
  have h0 := Nat.div_add_mod (m + TPB - 1) TPB
  have h1 : (m + TPB - 1) % TPB < TPB := Nat.mod_lt _ hT
  have hsub : ((m + TPB - 1) / TPB - 1) * TPB = (m + TPB - 1) / TPB * TPB - TPB := by
    rw [Nat.sub_mul, one_mul]
  have hcomm : (m + TPB - 1) / TPB * TPB = TPB * ((m + TPB - 1) / TPB) := mul_comm _ _
  have hq0 : 0 < (m + TPB - 1) / TPB := Nat.div_pos (by omega) hT
  omega

lemma bg_idx_decomp (BPC TPB c b t : Nat) (hT : 0 < TPB) (hb : b < BPC) (ht : t < TPB) :
    bg_row_idx BPC TPB (c * BPC + b) t = b * TPB + t ∧
      bg_col_idx BPC TPB (c * BPC + b) t = c := by
  have hlt : b * TPB + t < BPC * TPB := by
    calc b * TPB + t < b * TPB + TPB := by omega
    _ = (b + 1) * TPB := by ring
    _ ≤ BPC * TPB := Nat.mul_le_mul_right _ (by omega)
  have hpos : 0 < BPC * TPB := Nat.mul_pos (by omega) hT
  have hkey : (c * BPC + b) * TPB + t = BPC * TPB * c + (b * TPB + t) := by ring
  constructor
  · rw [bg_row_idx, hkey, Nat.mul_add_mod, Nat.mod_eq_of_lt hlt]
  · rw [bg_col_idx, hkey, Nat.mul_add_div hpos, Nat.div_eq_of_lt hlt, Nat.add_zero]

lemma sum_block_partition {R : Type} [CommRing R] (f : Nat → R) (m TPB BPC : Nat)
    (hT : 0 < TPB) (h1 : (BPC - 1) * TPB < m) (h2 : m ≤ BPC * TPB) :
    (∑ b ∈ Finset.range BPC,
        ∑ t ∈ Finset.range (if b < BPC - 1 then TPB else m - (BPC - 1) * TPB),
          f (b * TPB + t)) = ∑ r ∈ Finset.range m, f r := by
  have hcancel : m - (BPC - 1) * TPB + (BPC - 1) * TPB = m := Nat.sub_add_cancel h1.le
  have hsub : (BPC - 1) * TPB = BPC * TPB - TPB := by rw [Nat.sub_mul, one_mul]
  rw [Finset.sum_sigma']
  refine Finset.sum_nbij' (fun p => p.1 * TPB + p.2) (fun r => ⟨r / TPB, r % TPB⟩)
    ?_ ?_ ?_ ?_ ?_
  · rintro ⟨b, t⟩ hp
    simp only [Finset.mem_sigma, Finset.mem_range] at hp
    simp only [Finset.mem_range]
    rcases hp with ⟨hbB, ht⟩
    by_cases hb : b < BPC - 1
    · simp only [if_pos hb] at ht
      have hstep : (b + 1) * TPB ≤ (BPC - 1) * TPB := Nat.mul_le_mul_right _ (by omega)
      calc b * TPB + t < b * TPB + TPB := by omega
      _ = (b + 1) * TPB := by ring
      _ ≤ (BPC - 1) * TPB := hstep
      _ < m := h1
    · simp only [if_neg hb] at ht
      have hbeq : b = BPC - 1 := by omega
      subst hbeq
      omega
  · intro r hr
    simp only [Finset.mem_range] at hr
    simp only [Finset.mem_sigma, Finset.mem_range]
    have hdiv : r / TPB < BPC := by
      by_contra hcon
      push_neg at hcon
      have h5 : BPC * TPB ≤ r / TPB * TPB := Nat.mul_le_mul_right _ hcon
      have h6 : r / TPB * TPB ≤ r := Nat.div_mul_le_self r TPB
      omega
    refine ⟨hdiv, ?_⟩
    have hmod : r % TPB < TPB := Nat.mod_lt _ hT
    by_cases hcase : r / TPB < BPC - 1
    · simpa [hcase] using hmod
    · have hq : r / TPB = BPC - 1 := by omega
      have h3 := Nat.div_add_mod r TPB
      simp only [if_neg hcase]
      have h4 : TPB * (r / TPB) = (BPC - 1) * TPB := by rw [hq, mul_comm]
      omega
  · rintro ⟨b, t⟩ hp
    simp only [Finset.mem_sigma, Finset.mem_range] at hp
    have ht : t < TPB := by
      rcases hp with ⟨hbB, ht⟩
      by_cases hb : b < BPC - 1
      · simpa [hb] using ht
      · simp only [if_neg hb] at ht
        omega
    have hd : (b * TPB + t) / TPB = b := by
      rw [mul_comm b TPB, Nat.mul_add_div hT, Nat.div_eq_of_lt ht, Nat.add_zero]
    have hm2 : (b * TPB + t) % TPB = t := by
      rw [mul_comm b TPB, Nat.mul_add_mod, Nat.mod_eq_of_lt ht]
    simp [hd, hm2]
  · intro r hr
    show r / TPB * TPB + r % TPB = r
    have h3 := Nat.div_add_mod r TPB
    have h4 : r / TPB * TPB = TPB * (r / TPB) := mul_comm _ _
    omega
  · rintro ⟨b, t⟩ _
    rfl

lemma bg_filter_sum {R : Type} [CommRing R] (inb : Nat → R) (m n TPB BPC c : Nat)
    (hT : 0 < TPB) (hc : c < n) (hb1 : (BPC - 1) * TPB < m) (hb2 : m ≤ BPC * TPB)
    (hb3 : 0 < BPC) :
    (∑ bid ∈ (Finset.range (BPC * n)).filter (fun bid => bg_col_idx BPC TPB bid 0 = c),
        bg_block_sum inb m n BPC TPB bid) = ∑ r ∈ Finset.range m, inb (r * n + c) := by
  have hfilter : (Finset.range (BPC * n)).filter (fun bid => bg_col_idx BPC TPB bid 0 = c) =
      (Finset.range BPC).image (fun b => c * BPC + b) := by
    ext bid
    simp only [Finset.mem_filter, Finset.mem_range, Finset.mem_image]
    constructor
    · rintro ⟨hbid, hcol⟩
      have hcol' : bid / BPC = c := by
        have h5 : bg_col_idx BPC TPB bid 0 = bid / BPC := by
          rw [bg_col_idx, Nat.add_zero, Nat.mul_div_mul_right _ _ hT]
        rw [h5] at hcol
        exact hcol
      have hdm := Nat.div_add_mod bid BPC
      rw [hcol'] at hdm
      have hcm : BPC * c = c * BPC := mul_comm _ _
      have hmod : bid % BPC < BPC := Nat.mod_lt _ hb3
      exact ⟨bid - c * BPC, by omega, by omega⟩
    · rintro ⟨b, hbB, rfl⟩
      refine ⟨?_, (bg_idx_decomp BPC TPB c b 0 hT hbB hT).2⟩
      calc c * BPC + b < c * BPC + BPC := by omega
      _ = (c + 1) * BPC := by ring
      _ ≤ n * BPC := Nat.mul_le_mul_right _ (by omega)
      _ = BPC * n := mul_comm _ _
  rw [hfilter]
  rw [Finset.sum_image (by intro x _ y _ h; omega)]
  have hblock : ∀ b ∈ Finset.range BPC,
      bg_block_sum inb m n BPC TPB (c * BPC + b) =
        ∑ t ∈ Finset.range (if b < BPC - 1 then TPB else m - (BPC - 1) * TPB),
          inb ((b * TPB + t) * n + c) := by
    intro b hbB
    simp only [Finset.mem_range] at hbB
    have hrow0 : bg_row_idx BPC TPB (c * BPC + b) 0 = b * TPB := by
      simpa using (bg_idx_decomp BPC TPB c b 0 hT hbB hT).1
    by_cases hb : b < BPC - 1
    · rw [bg_block_sum, hrow0, if_pos ((Nat.mul_lt_mul_right hT).mpr hb), if_pos hb]
      refine Finset.sum_congr rfl ?_
      intro t htT
      simp only [Finset.mem_range] at htT
      obtain ⟨hrw, hcw⟩ := bg_idx_decomp BPC TPB c b t hT hbB htT
      rw [bg_thread_data, hrw, hcw, if_pos]
      calc b * TPB + t < b * TPB + TPB := by omega
      _ = (b + 1) * TPB := by ring
      _ ≤ (BPC - 1) * TPB := Nat.mul_le_mul_right _ (by omega)
      _ < m := hb1
    · rw [bg_block_sum, hrow0,
        if_neg (fun hcon => hb ((Nat.mul_lt_mul_right hT).mp hcon)), if_neg hb]
      have hbeq : b = BPC - 1 := by omega
      subst hbeq
      refine Finset.sum_congr rfl ?_
      intro t htT
      simp only [Finset.mem_range] at htT
      have hsub : (BPC - 1) * TPB = BPC * TPB - TPB := by rw [Nat.sub_mul, one_mul]
      have htT' : t < TPB := by omega
      obtain ⟨hrw, hcw⟩ := bg_idx_decomp BPC TPB c (BPC - 1) t hT (by omega) htT'
      rw [bg_thread_data, hrw, hcw, if_pos (by omega)]
  rw [Finset.sum_congr rfl hblock]
  exact sum_block_partition (fun r => inb (r * n + c)) m TPB BPC hT hb1 hb2

lemma bias_gradient_correct {R : Type} [CommRing R] (inb out : Nat → R)
    (m n TPB c : Nat) (hT : 0 < TPB) (hc : c < n) :
    bias_gradient_launcher inb out m n TPB c = ∑ r ∈ Finset.range m, inb (r * n + c) := by
  rcases Nat.eq_zero_or_pos m with hm | hm
  · subst hm
    have h0 : (TPB - 1) / TPB = 0 := Nat.div_eq_of_lt (by omega)
    simp [bias_gradient_launcher, h0, hc]
  obtain ⟨hb1, hb2, hb3⟩ := bpc_bounds m TPB hT hm
  rw [bias_gradient_launcher, if_pos hc, zero_add]
  exact bg_filter_sum inb m n TPB ((m + TPB - 1) / TPB) c hT hc hb1 hb2 hb3

end ReductionLemmas

section GeluLemmas

/-- Derivative of the real hyperbolic tangent. -/
lemma real_hasDerivAt_tanh (y : ℝ) : HasDerivAt Real.tanh (1 - Real.tanh y ^ 2) y := by
  have hc : Real.cosh y ≠ 0 := ne_of_gt (Real.cosh_pos y)
  have h := (Real.hasDerivAt_sinh y).div (Real.hasDerivAt_cosh y) hc
  have heq : Real.tanh = fun x => Real.sinh x / Real.cosh x :=
    funext Real.tanh_eq_sinh_div_cosh
  have hval : (Real.cosh y * Real.cosh y - Real.sinh y * Real.sinh y) / Real.cosh y ^ 2 =
      1 - Real.tanh y ^ 2 := by
    rw [Real.tanh_eq_sinh_div_cosh, div_pow]
    rw [eq_sub_iff_add_eq, div_add_div_same]
    rw [div_eq_one_iff_eq (pow_ne_zero 2 hc)]
    have key := Real.cosh_sq_sub_sinh_sq y
    nlinarith [key]
  have h' : HasDerivAt (fun z => Real.sinh z / Real.cosh z) (1 - Real.tanh y ^ 2) y := by
    rw [← hval]
    exact h
  exact h'.congr_of_eventuallyEq
    (Filter.Eventually.of_forall (fun z => Real.tanh_eq_sinh_div_cosh z))

/-- `detail::gelu_backward` at `dy = 1` is the analytic derivative of
`detail::gelu_forward`. -/
lemma hasDerivAt_gelu (x : ℝ) : HasDerivAt gelu_forward (gelu_backward x 1) x := by
  have h1 : HasDerivAt (fun z : ℝ => kKappa * z) (kKappa * 1) x :=
    (hasDerivAt_id x).const_mul kKappa
  have h2 : HasDerivAt (fun z : ℝ => kKappa * z * z) (kKappa * 1 * x + kKappa * x * 1) x :=
    h1.mul (hasDerivAt_id x)
  have h3 : HasDerivAt (fun z : ℝ => kKappa * z * z * z)
      ((kKappa * 1 * x + kKappa * x * 1) * x + kKappa * x * x * 1) x :=
    h2.mul (hasDerivAt_id x)
  have h4 : HasDerivAt (fun z : ℝ => z + kKappa * z * z * z)
      (1 + ((kKappa * 1 * x + kKappa * x * 1) * x + kKappa * x * x * 1)) x :=
    (hasDerivAt_id x).add h3
  have h5 : HasDerivAt (fun z : ℝ => kBeta * (z + kKappa * z * z * z))
      (kBeta * (1 + ((kKappa * 1 * x + kKappa * x * 1) * x + kKappa * x * x * 1))) x :=
    h4.const_mul kBeta
  have h6 : HasDerivAt (fun z : ℝ => Real.tanh (kBeta * (z + kKappa * z * z * z)))
      ((1 - Real.tanh (kBeta * (x + kKappa * x * x * x)) ^ 2) *
        (kBeta * (1 + ((kKappa * 1 * x + kKappa * x * 1) * x + kKappa * x * x * 1)))) x :=
    (real_hasDerivAt_tanh (kBeta * (x + kKappa * x * x * x))).comp x h5
  have h7 : HasDerivAt (fun z : ℝ => 1 + Real.tanh (kBeta * (z + kKappa * z * z * z)))
      ((1 - Real.tanh (kBeta * (x + kKappa * x * x * x)) ^ 2) *
        (kBeta * (1 + ((kKappa * 1 * x + kKappa * x * 1) * x + kKappa * x * x * 1)))) x :=
    h6.const_add 1
  have h8 := h7.const_mul (0.5 : ℝ)
  have h9 := (hasDerivAt_id x).mul h8
  have hfun : gelu_forward =
      fun z : ℝ => z * (0.5 * (1 + Real.tanh (kBeta * (z + kKappa * z * z * z)))) := rfl
  rw [hfun]
  convert h9 using 1
  show gelu_backward x 1 = _
  simp only [id_eq]
  unfold gelu_backward
  ring

end GeluLemmas

/-- C10: the emulated (rocblas) backend accepts exactly the element-type
triples (fp16,fp16,fp16), (fp32,fp32,fp32), and (e4m3-or-e5m2,
e4m3-or-e5m2, fp32-or-fp16) except when both inputs are e5m2 (first
conjunct: the source's accepted-triples predicate coincides with the
claim's characterisation); and every call whose triple is not accepted
fails before the multiply is performed - its trace contains no gemm
enqueue on any stream (second conjunct). -/
theorem c10_rocblas_accepted_triples {R : Type} [CommRing R] :
    (∀ a b d : rocblas_datatype, rocblas_triple_ok a b d = spec_triple_ok a b d) ∧
    ∀ args : RocArgs R,
      rocblas_triple_ok (get_cuda_dtype args.inputA.dtype)
          (get_cuda_dtype args.inputB.dtype) (get_cuda_dtype args.outputD.dtype) = false →
        (cublas_gemm_rocblas args).err.isSome = true ∧
          ∀ s, Action.enqueue DevOp.gemmEx s ∉ (cublas_gemm_rocblas args).trace := by
  constructor
  · decide
  · intro args h
    constructor
    · unfold cublas_gemm_rocblas
      split_ifs <;> simp_all [rocFail] <;> split_ifs <;> simp_all [rocFail]
    · intro s
      unfold cublas_gemm_rocblas
      split_ifs <;> simp_all [rocFail] <;> split_ifs <;> simp_all [rocFail]

/-- C10 witness: a concrete rejected call (bf16 output) on which the
theorem's hypotheses hold and the call indeed fails. -/
theorem c10_witness :
    (cublas_gemm_rocblas c10args).err.isSome = true ∧
      ∀ s, Action.enqueue DevOp.gemmEx s ∉ (cublas_gemm_rocblas c10args).trace :=
  (c10_rocblas_accepted_triples (R := Int)).2 c10args (by decide)

/-- C2: over the type triples the emulated backend accepts, a scratch
buffer distinct from the output is allocated iff an epilogue is
requested (bias or aux pointer non-null) and the output element type
differs from the single-precision accumulation type f32 (first
conjunct); every completed call records exactly that decision, and when
no scratch is used the multiply's destination buffer is the caller's D
tensor, whose prior contents feed the beta term - i.e. the multiply
writes in place (second conjunct). -/
theorem c2_scratch_iff {R : Type} [CommRing R] :
    (∀ (bias gelu : Bool) (a b d : rocblas_datatype), rocblas_triple_ok a b d = true →
      (rocblas_need_scratch bias gelu d = true ↔
        ((bias = true ∨ gelu = true) ∧ d ≠ rocblas_datatype.f32_r))) ∧
    ∀ args : RocArgs R, (cublas_gemm_rocblas args).err = none →
      (cublas_gemm_rocblas args).usedScratch =
        rocblas_need_scratch args.inputBias.dptr.isSome args.outputPreGelu.dptr.isSome
          (get_cuda_dtype args.outputD.dtype) ∧
      ((cublas_gemm_rocblas args).usedScratch = false →
        (cublas_gemm_rocblas args).dTemp =
          rocblas_gemm_ex (bufOf args.inputA) (bufOf args.inputB) (bufOf args.outputD)
            args.cfg (rocblas_alpha args) (rocblas_beta args)) := by
  constructor
  · decide
  · intro args h
    simp only [cublas_gemm_rocblas] at h ⊢
    split_ifs at h ⊢ <;>
      first
        | (simp [rocFail] at h
           done)
        | exact ⟨rfl, fun _ => rfl⟩
        | (refine ⟨rfl, fun hs => ?_⟩
           have hs2 : rocblas_need_scratch args.inputBias.dptr.isSome
               args.outputPreGelu.dptr.isSome (get_cuda_dtype args.outputD.dtype) = false := hs
           simp_all)

/-- C2 witness: at a concrete f16 call with a bias epilogue the
hypotheses hold and a scratch buffer is allocated. -/
theorem c2_witness :
    ((rocblas_need_scratch true false rocblas_datatype.f16_r = true ↔
      ((true = true ∨ false = true) ∧ rocblas_datatype.f16_r ≠ rocblas_datatype.f32_r)) ∧
     ((cublas_gemm_rocblas c2args).usedScratch =
        rocblas_need_scratch c2args.inputBias.dptr.isSome c2args.outputPreGelu.dptr.isSome
          (get_cuda_dtype c2args.outputD.dtype) ∧
      ((cublas_gemm_rocblas c2args).usedScratch = false →
        (cublas_gemm_rocblas c2args).dTemp =
          rocblas_gemm_ex (bufOf c2args.inputA) (bufOf c2args.inputB) (bufOf c2args.outputD)
            c2args.cfg (rocblas_alpha c2args) (rocblas_beta c2args)))) ∧
    (cublas_gemm_rocblas c2args).usedScratch = true :=
  ⟨⟨(c2_scratch_iff (R := Int)).1 true false rocblas_datatype.f16_r
      rocblas_datatype.f16_r rocblas_datatype.f16_r (by decide),
    (c2_scratch_iff (R := Int)).2 c2args (by decide)⟩, by decide⟩

/-- C5: the column-sum bias-gradient reduction zeroes the destination
before accumulating (the result for every column below n is independent
of the arbitrary prior contents `out`), accumulates the per-block sums
(order-independent in the exact model of single-precision atomic
accumulation), and for every input of shape (rows=m, cols=n) yields the
exact column sums, for every block size TPB > 0; with the pattern
value = row index each column sums to m*(m-1)/2. -/
theorem c5_bias_gradient_reduction {R : Type} [CommRing R] (inb out : Nat → R)
    (m n TPB c : Nat) (hT : 0 < TPB) (hc : c < n) :
    bias_gradient_launcher inb out m n TPB c = ∑ r ∈ Finset.range m, inb (r * n + c) ∧
    bias_gradient_launcher (fun id => ((id / n : Nat) : R)) out m n TPB c =
      ((m * (m - 1) / 2 : Nat) : R) := by
  refine ⟨bias_gradient_correct inb out m n TPB c hT hc, ?_⟩
  rw [bias_gradient_correct _ out m n TPB c hT hc]
  have hn : 0 < n := by omega
  have heach : ∀ r, (r * n + c) / n = r := by
    intro r
    rw [mul_comm r n, Nat.mul_add_div hn, Nat.div_eq_of_lt hc, Nat.add_zero]
  have hsum : ∀ r ∈ Finset.range m,
      (((r * n + c) / n : Nat) : R) = ((r : Nat) : R) := by
    intro r _
    rw [heach r]
  rw [Finset.sum_congr rfl hsum]
  rw [← Nat.cast_sum]
  congr 1
  exact Finset.sum_range_id m

/-- C5 witness: a 3-by-2 matrix with block size 2 (two blocks per
column, exercising both reduction branches); the pattern column sum is
3 = 3*2/2. -/
theorem c5_witness :
    (bias_gradient_launcher (fun id => (id * id : Int)) (fun _ => 7) 3 2 2 1 =
      ∑ r ∈ Finset.range 3, ((r * 2 + 1) * (r * 2 + 1) : Int) ∧
     bias_gradient_launcher (fun id => ((id / 2 : Nat) : Int)) (fun _ => 7) 3 2 2 1 =
      ((3 * (3 - 1) / 2 : Nat) : Int)) ∧
    bias_gradient_launcher (fun id => ((id / 2 : Nat) : Int)) (fun _ => 7) 3 2 2 1 = 3 :=
  ⟨c5_bias_gradient_reduction (fun id => (id * id : Int)) (fun _ => 7) 3 2 2 1
      (by decide) (by decide),
   by decide⟩

/-- C9: the `NVTE_LOG_GEMM_CONFIG` debug switch has no effect on
results: for identical arguments the call result (output, bias and
pre-gelu buffers, and success or failure) is identical whether the
switch is on or off; the switch only adds the diagnostic host readbacks
and printout, which live in the second component of the model. -/
theorem c9_log_switch_no_effect {R : Type} [CommRing R] (a : NvteArgs R) :
    (nvte_cublas_gemm true a).1 = (nvte_cublas_gemm false a).1 := by
  by_cases h : (a.transa && a.transb) = true <;>
    simp [nvte_cublas_gemm, h]

/-- C1 counterexample: a concrete bias-only-gradient call (m=n=k=1,
all-f32, A=2, B=3) succeeds with bias output 3 = the column sum of
operand B, while the column-wise reduction of the multiply result
buffer `D_temp` is 6; hence the bias output does NOT equal the
reduction of `D_temp` as the claim states. -/
theorem c1_counterexample :
    (cublas_gemm_rocblas c1args).err = none ∧
    (cublas_gemm_rocblas c1args).outBias 0 = 3 ∧
    (∑ r ∈ Finset.range c1args.cfg.k,
      (cublas_gemm_rocblas c1args).dTemp (r * c1args.cfg.n + 0)) = 6 ∧
    (3 : Int) ≠ 6 := by
  refine ⟨by decide, by decide, ?_, by decide⟩
  decide

/-- A call of the rocblas variant that returns without error produces
the outputs of the epilogue dispatch applied to its multiply result. -/
lemma cublas_gemm_rocblas_success {R : Type} [CommRing R] (args : RocArgs R)
    (hok : (cublas_gemm_rocblas args).err = none) :
    (cublas_gemm_rocblas args).outBias =
      (rocblas_epilogue args (cublas_gemm_rocblas args).dTemp
        (rocblas_need_scratch args.inputBias.dptr.isSome args.outputPreGelu.dptr.isSome
          (get_cuda_dtype args.outputD.dtype))).outBias ∧
    (cublas_gemm_rocblas args).outD =
      (rocblas_epilogue args (cublas_gemm_rocblas args).dTemp
        (rocblas_need_scratch args.inputBias.dptr.isSome args.outputPreGelu.dptr.isSome
          (get_cuda_dtype args.outputD.dtype))).outD := by
  simp only [cublas_gemm_rocblas] at hok ⊢
  split_ifs at hok ⊢ <;>
    first
      | (simp [rocFail] at hok
         done)
      | exact ⟨rfl, rfl⟩

/-- In bias-only gradient mode the epilogue dispatch reduces operand B
column-wise into the bias output, and copies `D_temp` into D when the
output tag is f16. -/
lemma rocblas_epilogue_bias_grad {R : Type} [CommRing R] (a : RocArgs R)
    (dT : Nat → R) (ns : Bool)
    (hgrad : a.cfg.grad = true) (hbias : a.inputBias.dptr.isSome = true)
    (hgelu : a.outputPreGelu.dptr.isSome = false) :
    (∀ c, c < a.cfg.n → (rocblas_epilogue a dT ns).outBias c =
      ∑ r ∈ Finset.range a.cfg.k, bufOf a.inputB (r * a.cfg.n + c)) ∧
    (get_cuda_dtype a.outputD.dtype = rocblas_datatype.f16_r →
      ∀ id, id < a.cfg.m * a.cfg.n → (rocblas_epilogue a dT ns).outD id = dT id) := by
  simp only [rocblas_epilogue, hbias, hgelu, hgrad, Bool.true_and, Bool.and_false,
    Bool.false_and, if_true, if_false, Bool.true_eq_false, Bool.false_eq_true]
  constructor
  · intro c hc
    split_ifs with hb32
    · rw [identity_kernel, if_pos hc,
        bias_gradient_correct _ _ a.cfg.k a.cfg.n 1024 c (by omega) hc]
    · rw [bias_gradient_correct _ _ a.cfg.k a.cfg.n 1024 c (by omega) hc]
  · intro hf16 id hid
    have hbeq : (get_cuda_dtype a.outputD.dtype == rocblas_datatype.f16_r) = true := by
      simp [hf16]
    simp [hbeq, identity_kernel, hid]

/-- C1 (amended): in the emulated bias-only gradient mode (bias
pointer non-null, aux pointer null, grad=true), the bias-gradient
output equals the column-wise (row-axis) reduction of operand B - the
upstream-gradient operand - one value per output column (`D_temp`
instead holds the weight-gradient multiply result); and when the
destination D's type tag is f16 (narrower than single precision), D
additionally receives a value copy of `D_temp`. -/
theorem c1_amended {R : Type} [CommRing R] (args : RocArgs R)
    (hgrad : args.cfg.grad = true)
    (hbias : args.inputBias.dptr.isSome = true)
    (hgelu : args.outputPreGelu.dptr.isSome = false)
    (hok : (cublas_gemm_rocblas args).err = none) :
    (∀ c, c < args.cfg.n → (cublas_gemm_rocblas args).outBias c =
      ∑ r ∈ Finset.range args.cfg.k, bufOf args.inputB (r * args.cfg.n + c)) ∧
    (get_cuda_dtype args.outputD.dtype = rocblas_datatype.f16_r →
      ∀ id, id < args.cfg.m * args.cfg.n →
        (cublas_gemm_rocblas args).outD id = (cublas_gemm_rocblas args).dTemp id) := by
  obtain ⟨hB, hD⟩ := cublas_gemm_rocblas_success args hok
  obtain ⟨eB, eD⟩ := rocblas_epilogue_bias_grad args (cublas_gemm_rocblas args).dTemp
    (rocblas_need_scratch args.inputBias.dptr.isSome args.outputPreGelu.dptr.isSome
      (get_cuda_dtype args.outputD.dtype)) hgrad hbias hgelu
  constructor
  · intro c hc
    rw [hB]
    exact eB c hc
  · intro hf16 id hid
    rw [hD]
    exact eD hf16 id hid

/-- C1 witness: the amended theorem applied at the concrete call of
the counterexample; the bias output is the column sum 3 of operand
B. -/
theorem c1_amended_witness :
    ((∀ c, c < c1args.cfg.n → (cublas_gemm_rocblas c1args).outBias c =
      ∑ r ∈ Finset.range c1args.cfg.k, bufOf c1args.inputB (r * c1args.cfg.n + c)) ∧
    (get_cuda_dtype c1args.outputD.dtype = rocblas_datatype.f16_r →
      ∀ id, id < c1args.cfg.m * c1args.cfg.n →
        (cublas_gemm_rocblas c1args).outD id = (cublas_gemm_rocblas c1args).dTemp id)) ∧
    (cublas_gemm_rocblas c1args).outBias 0 = 3 :=
  ⟨c1_amended c1args (by decide) (by decide) (by decide) (by decide), by decide⟩

/-- C6: the activation forward function computes
`x * 0.5 * (1 + tanh(kBeta * (x + kKappa x^3)))` elementwise, and the
activation gradient computes the analytic derivative of that expression
at the stored pre-activation value, multiplied by the upstream
gradient: `gelu_backward x 1` is the derivative of `gelu_forward` at x
and `gelu_backward x dy = dy * gelu_backward x 1`. The last two
conjuncts verify that the source constant 0.7978845608028654 and the
claim's 0.7978845608 both lie within half an ulp of the same binary32
value 13386282/2^24, i.e. they are the same constant in single
precision. -/
theorem c6_gelu_forward_backward (x dy : ℝ) :
    gelu_forward x = x * 0.5 * (1 + Real.tanh (kBeta * (x + kKappa * x ^ 3))) ∧
    HasDerivAt gelu_forward (gelu_backward x 1) x ∧
    gelu_backward x dy = dy * gelu_backward x 1 ∧
    |(0.7978845608028654 : ℚ) - 13386282 / 2 ^ 24| ≤ 1 / 2 ^ 25 ∧
    |(0.7978845608 : ℚ) - 13386282 / 2 ^ 24| ≤ 1 / 2 ^ 25 := by
  refine ⟨?_, hasDerivAt_gelu x, ?_, ?_, ?_⟩
  · unfold gelu_forward
    ring
  · unfold gelu_backward
    ring
  · rw [abs_le]
    constructor <;> norm_num
  · rw [abs_le]
    constructor <;> norm_num

/-- C3 counterexample: on the rocblas (emulated) backend variant, a
call with a narrow-format operand A whose inverse-scale pointer is null
does NOT fail - it completes without error and enqueues the multiply
(device memory is written) - refuting the claim that this check holds
on every backend variant. -/
theorem c3_counterexample :
    is_fp8_dtype c3args.inputA.dtype = true ∧ c3args.inputA.scale_inv = none ∧
    (cublas_gemm_rocblas c3args).err = none ∧
    Action.enqueue DevOp.gemmEx 0 ∈ (cublas_gemm_rocblas c3args).trace := by
  decide

/-- C3 (amended): on the hipblaslt and cublasLt variants, a call with
a narrow-format operand whose inverse-scale pointer is null fails with
the narrow-format-requires-inverse-scale error before any device work
(empty trace); the rocblas variant performs no such check - it never
raises that error; it instead reads through the null pointer and
proceeds. -/
theorem c3_amended {R : Type} [CommRing R] :
    (∀ na : NativeArgs R,
      (is_fp8_dtype na.inputA.dtype = true ∧ na.inputA.scale_inv = none) ∨
        (is_fp8_dtype na.inputB.dtype = true ∧ na.inputB.scale_inv = none) →
      cublas_gemm_hipblaslt na = (some "FP8 input to GEMM requires inverse of scale!", []) ∧
      cublas_gemm_cublaslt na = (some "FP8 input to GEMM requires inverse of scale!", [])) ∧
    ∀ args : RocArgs R,
      (cublas_gemm_rocblas args).err ≠ some "FP8 input to GEMM requires inverse of scale!" := by
  constructor
  · intro na h
    constructor
    · unfold cublas_gemm_hipblaslt
      by_cases hc1 : (is_fp8_dtype na.inputA.dtype && na.inputA.scale_inv.isNone) = true
      · simp [hc1]
      · rcases h with ⟨hA, hA2⟩ | ⟨hB, hB2⟩
        · exact absurd (by simp [hA, hA2]) hc1
        · simp [hc1, hB, hB2]
    · unfold cublas_gemm_cublaslt
      by_cases hc1 : (is_fp8_dtype na.inputA.dtype && na.inputA.scale_inv.isNone) = true
      · simp [hc1]
      · rcases h with ⟨hA, hA2⟩ | ⟨hB, hB2⟩
        · exact absurd (by simp [hA, hA2]) hc1
        · simp [hc1, hB, hB2]
  · intro args
    simp only [cublas_gemm_rocblas]
    split_ifs <;> simp [rocFail]

/-- C3 witness: the amended theorem applied at a concrete call with a
narrow A operand and null inverse scale. -/
theorem c3_amended_witness :
    (cublas_gemm_hipblaslt c3na = (some "FP8 input to GEMM requires inverse of scale!", []) ∧
     cublas_gemm_cublaslt c3na = (some "FP8 input to GEMM requires inverse of scale!", [])) ∧
    (cublas_gemm_rocblas c3args).err ≠ some "FP8 input to GEMM requires inverse of scale!" :=
  ⟨(c3_amended (R := Int)).1 c3na (Or.inl ⟨by decide, by decide⟩),
   (c3_amended (R := Int)).2 c3args⟩

/-- C4 counterexample: on the hipblaslt backend variant, a call with
narrow (e4m3) output and accumulate=true does NOT fail - it completes
without error and enqueues the fused multiply - refuting the claim that
this check holds on every backend variant. -/
theorem c4_counterexample :
    is_fp8_dtype c4na.outputD.dtype = true ∧ c4na.cfg.accumulate = true ∧
    (cublas_gemm_hipblaslt c4na).1 = none ∧
    Action.enqueue DevOp.matmulFused 5 ∈ (cublas_gemm_hipblaslt c4na).2 := by
  decide

/-- C4 (amended): on the rocblas and cublasLt variants, a call with
narrow output format and accumulate=true fails with the
accumulation-unsupported-for-narrow-output error before any device
work (empty trace), provided the checks that precede it in source
order do not fire first; the hipblaslt variant has no such check. -/
theorem c4_amended {R : Type} [CommRing R] :
    (∀ args : RocArgs R, is_fp8_dtype args.outputD.dtype = true →
      args.cfg.accumulate = true →
      ((is_fp8_dtype args.inputA.dtype || is_fp8_dtype args.inputB.dtype) &&
        args.outputPreGelu.dptr.isSome && is_fp8_dtype args.outputPreGelu.dtype) = false →
      (cublas_gemm_rocblas args).err =
        some "Accumulation mode not supported with FP8 GEMM output!" ∧
      (cublas_gemm_rocblas args).trace = []) ∧
    ∀ na : NativeArgs R, is_fp8_dtype na.outputD.dtype = true →
      na.cfg.accumulate = true →
      (is_fp8_dtype na.inputA.dtype && na.inputA.scale_inv.isNone) = false →
      (is_fp8_dtype na.inputB.dtype && na.inputB.scale_inv.isNone) = false →
      ((is_fp8_dtype na.inputA.dtype || is_fp8_dtype na.inputB.dtype) &&
        na.outputPreGelu.dptr.isSome && is_fp8_dtype na.outputPreGelu.dtype) = false →
      cublas_gemm_cublaslt na =
        (some "Accumulation mode not supported with FP8 GEMM output!", []) := by
  constructor
  · intro args hD hacc hpre
    simp [cublas_gemm_rocblas, hD, hacc, hpre, rocFail]
  · intro na hD hacc hA hB hpre
    simp [cublas_gemm_cublaslt, hD, hacc, hA, hB, hpre]

/-- C4 witness: the amended theorem applied at concrete narrow-output
accumulate calls on both checking variants. -/
theorem c4_amended_witness :
    ((cublas_gemm_rocblas c4roc).err =
        some "Accumulation mode not supported with FP8 GEMM output!" ∧
     (cublas_gemm_rocblas c4roc).trace = []) ∧
    cublas_gemm_cublaslt c4cb =
      (some "Accumulation mode not supported with FP8 GEMM output!", []) :=
  ⟨(c4_amended (R := Int)).1 c4roc (by decide) (by decide) (by decide),
   (c4_amended (R := Int)).2 c4cb (by decide) (by decide) (by decide) (by decide) (by decide)⟩

/-- C7 counterexample: a rocblas-variant call with caller stream 1 and
a GELU epilogue succeeds, enqueues the activation kernel on stream 0,
and enqueues nothing at all on the caller's stream 1 - refuting the
claim that all device work of a call is scheduled on the
caller-supplied stream. -/
theorem c7_counterexample :
    c7args.cfg.streamId = 1 ∧
    (cublas_gemm_rocblas c7args).err = none ∧
    Action.enqueue DevOp.kGeluForward 0 ∈ (cublas_gemm_rocblas c7args).trace ∧
    ∀ op : DevOp, Action.enqueue op 1 ∉ (cublas_gemm_rocblas c7args).trace := by
  decide

/-- Every kernel enqueued by the emulated epilogue dispatch carries
stream argument 0, exactly as the source passes literal 0 to every
launcher. -/
lemma rocblas_epilogue_stream0 {R : Type} [CommRing R] (a : RocArgs R)
    (dT : Nat → R) (ns : Bool) :
    ∀ op s, Action.enqueue op s ∈ (rocblas_epilogue a dT ns).tr → s = 0 := by
  intro op s h
  unfold rocblas_epilogue at h
  split_ifs at h
  all_goals try simp_all
  all_goals try (split_ifs at h <;> try simp_all)
  all_goals tauto

/-- C7 (amended): the hipblaslt and cublasLt variants enqueue all
their device work (the single fused multiply) on the caller-supplied
stream; the rocblas variant enqueues every device operation (the bare
multiply and every epilogue kernel) on the default stream 0, ignoring
the caller's stream. -/
theorem c7_amended {R : Type} [CommRing R] :
    (∀ na : NativeArgs R, ∀ op s, Action.enqueue op s ∈ (cublas_gemm_hipblaslt na).2 →
      s = na.cfg.streamId) ∧
    (∀ na : NativeArgs R, ∀ op s, Action.enqueue op s ∈ (cublas_gemm_cublaslt na).2 →
      s = na.cfg.streamId) ∧
    (∀ args : RocArgs R, ∀ op s, Action.enqueue op s ∈ (cublas_gemm_rocblas args).trace →
      s = 0) := by
  refine ⟨?_, ?_, ?_⟩
  · intro na op s h
    unfold cublas_gemm_hipblaslt at h
    split_ifs at h <;> simp_all
  · intro na op s h
    unfold cublas_gemm_cublaslt at h
    split_ifs at h <;> simp_all
  · intro args op s h
    simp only [cublas_gemm_rocblas] at h
    split_ifs at h <;>
      first
        | (simp_all [rocFail]
           done)
        | (simp [rocFail] at h
           rcases h with ⟨_, rfl⟩ | h
           · rfl
           · exact rocblas_epilogue_stream0 args _ _ op s h)
/-- C7 witness: the amended theorem applied to concrete calls - a
native call with stream 3 whose matmul is on stream 3, and the rocblas
call of the counterexample whose kernel is on stream 0. -/
theorem c7_amended_witness :
    (3 = c7na.cfg.streamId) ∧ (3 = c7na.cfg.streamId) ∧ (0 = 0) :=
  ⟨(c7_amended (R := Int)).1 c7na DevOp.matmulFused 3 (by decide),
   (c7_amended (R := Int)).2.1 c7na DevOp.matmulFused 3 (by decide),
   (c7_amended (R := Int)).2.2 c7args DevOp.kGeluForward 0 (by decide)⟩

/-- C8 counterexample: when the heuristic search returns zero
algorithms, the hipblaslt variant throws with the preference object
created but never destroyed - refuting the claim that every created
object is destroyed on every error path. -/
theorem c8_counterexample :
    (cublas_gemm_hipblaslt c8na).1 = some "Unable to find any suitable algorithms" ∧
    Action.create Res.matmulPref ∈ (cublas_gemm_hipblaslt c8na).2 ∧
    Action.destroy Res.matmulPref ∉ (cublas_gemm_hipblaslt c8na).2 := by
  decide

/-- C8 (amended): on the successful path the hipblaslt executor
destroys every object it created; the cublasLt executor destroys every
object except the library handle, which it creates and never destroys
even on success; on the zero-algorithms error path neither variant
destroys anything (the objects created up to the failure leak). -/
theorem c8_amended {R : Type} [CommRing R] :
    (∀ na : NativeArgs R, (cublas_gemm_hipblaslt na).1 = none →
      ∀ r, Action.create r ∈ (cublas_gemm_hipblaslt na).2 →
        Action.destroy r ∈ (cublas_gemm_hipblaslt na).2) ∧
    (∀ na : NativeArgs R, (cublas_gemm_cublaslt na).1 = none →
      (∀ r, r ≠ Res.handle → Action.create r ∈ (cublas_gemm_cublaslt na).2 →
        Action.destroy r ∈ (cublas_gemm_cublaslt na).2) ∧
      Action.create Res.handle ∈ (cublas_gemm_cublaslt na).2 ∧
      Action.destroy Res.handle ∉ (cublas_gemm_cublaslt na).2) ∧
    (∀ na : NativeArgs R,
      (cublas_gemm_hipblaslt na).1 = some "Unable to find any suitable algorithms" →
      (∀ r, Action.destroy r ∉ (cublas_gemm_hipblaslt na).2) ∧
      Action.create Res.matmulPref ∈ (cublas_gemm_hipblaslt na).2) ∧
    (∀ na : NativeArgs R,
      (cublas_gemm_cublaslt na).1 = some "Unable to find any suitable algorithms" →
      (∀ r, Action.destroy r ∉ (cublas_gemm_cublaslt na).2) ∧
      Action.create Res.matmulPref ∈ (cublas_gemm_cublaslt na).2) := by
  refine ⟨?_, ?_, ?_, ?_⟩
  · intro na hok r hcr
    unfold cublas_gemm_hipblaslt at hok hcr ⊢
    split_ifs at hok hcr ⊢ <;>
      first
        | (simp at hok
           done)
        | (cases r <;> simp_all)
  · intro na hok
    unfold cublas_gemm_cublaslt at hok ⊢
    split_ifs at hok ⊢ <;>
      first
        | (simp at hok
           done)
        | exact ⟨fun r hr hcr => by cases r <;> simp_all, by simp, by simp⟩
  · intro na hok
    unfold cublas_gemm_hipblaslt at hok ⊢
    split_ifs at hok ⊢ <;>
      first
        | (simp at hok
           done)
        | (exact absurd hok (by decide))
        | exact ⟨fun r => by simp, by simp⟩
  · intro na hok
    unfold cublas_gemm_cublaslt at hok ⊢
    split_ifs at hok ⊢ <;>
      first
        | (simp at hok
           done)
        | (exact absurd hok (by decide))
        | exact ⟨fun r => by simp, by simp⟩

/-- C8 witness: the amended theorem applied at concrete calls - a
successful hipblaslt call (layout destroyed), a successful cublasLt
call (handle leaked), and the zero-algorithms hipblaslt call of the
counterexample. -/
theorem c8_amended_witness :
    Action.destroy Res.adesc ∈ (cublas_gemm_hipblaslt c8hip).2 ∧
    ((∀ r, r ≠ Res.handle → Action.create r ∈ (cublas_gemm_cublaslt c8hip).2 →
        Action.destroy r ∈ (cublas_gemm_cublaslt c8hip).2) ∧
      Action.create Res.handle ∈ (cublas_gemm_cublaslt c8hip).2 ∧
      Action.destroy Res.handle ∉ (cublas_gemm_cublaslt c8hip).2) ∧
    ((∀ r, Action.destroy r ∉ (cublas_gemm_hipblaslt c8na).2) ∧
      Action.create Res.matmulPref ∈ (cublas_gemm_hipblaslt c8na).2) :=
  ⟨(c8_amended (R := Int)).1 c8hip (by decide) Res.adesc (by decide),
   (c8_amended (R := Int)).2.1 c8hip (by decide),
   (c8_amended (R := Int)).2.2.1 c8na (by decide)⟩


end TEGemm
